import Mathlib

/-
  Verification of the GL rendering backend core
  (sixtyfps_runtime/rendering_backends/gl/lib.rs): the image cache and GPU
  upload lifecycle, the font cache, text layout (wrapping, elision, cursor
  mapping) and the draw-primitive canvas save/restore discipline, modelled as
  a shallow embedding.  Floating-point coordinates are modelled by rationals;
  GPU image ids and font handles by naturals; reference-counted sharing by an
  explicit strong-count map.
-/

namespace GLBackend

/- Generic association-list lookup and membership, modelling HashMap access. -/

def assoc_lookup {α β : Type} [DecidableEq α] (key : α) : List (α × β) → Option β
  | [] => Option.none
  | (k, v) :: rest => if k = key then Option.some v else assoc_lookup key rest

def mem_bool {α : Type} [DecidableEq α] (a : α) : List α → Bool
  | [] => false
  | b :: rest => if b = a then true else mem_bool a rest

/- Canvas operations relevant to the save/restore stack discipline of the
   frame renderer.  Only save and restore change the state-stack depth. -/

inductive CanvasOp where
  | save
  | restore
  | translate
  | scale
  | fillPath
  | strokePath
  | fillText
  | intersectScissor
deriving DecidableEq

/- femtovg's save_with: a save, then the body, then a restore. -/
def save_with (body : List CanvasOp) : List CanvasOp :=
  CanvasOp.save :: body ++ [CanvasOp.restore]

/- balanced d ops: starting at depth d relative to the caller, the trace never
   restores below the caller's depth and ends exactly at it. -/
def balanced : Nat → List CanvasOp → Bool
  | d, [] => d == 0
  | d, op :: rest =>
    if op = CanvasOp.save then balanced (d + 1) rest
    else if op = CanvasOp.restore then
      if d = 0 then false else balanced (d - 1) rest
    else balanced d rest

/- Early-return guards of the draw primitives, exactly as written in the
   source.  Note draw_image_impl tests target_height < 0 (strict), while the
   two text primitives test their height with ≤ 0. -/

def draw_image_impl_returns_early (target_width target_height : ℚ) : Bool :=
  decide (target_width ≤ 0) || decide (target_height < 0)

def draw_text_returns_early (max_width max_height : ℚ) : Bool :=
  decide (max_width ≤ 0) || decide (max_height ≤ 0)

def draw_text_input_returns_early (width height : ℚ) : Bool :=
  decide (width ≤ 0) || decide (height ≤ 0)

/- Canvas-operation traces of the draw primitives; data-dependent branch
   conditions are abstracted as boolean parameters. -/

def draw_rectangle_ops (geometry_is_empty : Bool) : List CanvasOp :=
  if geometry_is_empty then []
  else save_with [CanvasOp.translate, CanvasOp.fillPath]

def draw_border_rectangle_ops (geometry_is_empty : Bool) : List CanvasOp :=
  if geometry_is_empty then []
  else save_with [CanvasOp.translate, CanvasOp.fillPath, CanvasOp.strokePath]

def draw_path_ops (elements_is_none : Bool) : List CanvasOp :=
  if elements_is_none then []
  else save_with [CanvasOp.translate, CanvasOp.fillPath, CanvasOp.strokePath]

def draw_box_shadow_ops : List CanvasOp :=
  save_with [CanvasOp.translate, CanvasOp.fillPath, CanvasOp.fillPath]

def draw_image_impl_ops (target_width target_height : ℚ) (image_available : Bool) :
    List CanvasOp :=
  if draw_image_impl_returns_early target_width target_height then []
  else if image_available then save_with [CanvasOp.translate, CanvasOp.scale, CanvasOp.fillPath]
  else []

def draw_text_impl_ops : List CanvasOp :=
  [CanvasOp.fillText]

def draw_text_ops (max_width max_height : ℚ) (lines_drawn : Nat) : List CanvasOp :=
  if draw_text_returns_early max_width max_height then []
  else List.replicate lines_drawn CanvasOp.fillText

def draw_text_input_ops (width height : ℚ) (has_selection cursor_drawn : Bool) :
    List CanvasOp :=
  if draw_text_input_returns_early width height then []
  else
    draw_text_impl_ops ++
      (if has_selection then
        CanvasOp.fillPath :: CanvasOp.save :: CanvasOp.intersectScissor ::
          (draw_text_impl_ops ++ [CanvasOp.restore])
      else []) ++
      (if cursor_drawn then [CanvasOp.fillPath] else [])

def draw_cached_pixmap_ops (image_available : Bool) : List CanvasOp :=
  if image_available then [CanvasOp.fillPath] else []

def combine_clip_ops : List CanvasOp :=
  [CanvasOp.intersectScissor]

def save_state_ops : List CanvasOp :=
  [CanvasOp.save]

def restore_state_ops : List CanvasOp :=
  [CanvasOp.restore]

/- The GPU canvas as seen by CachedImage: an id allocator counting
   create_image invocations. -/

structure Canvas where
  next_image_id : Nat
  create_image_calls : Nat
deriving DecidableEq

structure DecodedImage where
  width : Nat
  height : Nat
  directly_supported : Bool
deriving DecidableEq

def Canvas.create_image (canvas : Canvas) (_source : DecodedImage) : Canvas × Nat :=
  ({ next_image_id := canvas.next_image_id + 1,
     create_image_calls := canvas.create_image_calls + 1 }, canvas.next_image_id)

def DecodedImage.to_rgba8 (img : DecodedImage) : DecodedImage :=
  { img with directly_supported := true }

/- ImageData: a CachedImage owns either a CPU-side decoded buffer or a
   GPU-side id, optionally with an upload-pending flag (the current value of
   the Property boolean cell). -/

inductive ImageData where
  | GPUSide (id : Nat) (upload_pending : Option Bool)
  | CPUSide (decoded_image : DecodedImage)
deriving DecidableEq

/- CachedImage::ensure_uploaded_to_gpu: on a CPU-side image, try the
   zero-copy ImageSource fast path, fall back to an 8-bit RGBA conversion,
   create the GPU image and transition to GPU-side; on a GPU-side image,
   return the stored id unchanged.  Returns (new state, canvas, returned id). -/
def CachedImage.ensure_uploaded_to_gpu : ImageData → Canvas → ImageData × Canvas × Nat
  | ImageData.CPUSide decoded_image, canvas =>
      let source :=
        if decoded_image.directly_supported then decoded_image
        else decoded_image.to_rgba8
      let created := canvas.create_image source
      (ImageData.GPUSide created.2 Option.none, created.1, created.2)
  | ImageData.GPUSide id upload_pending, canvas =>
      (ImageData.GPUSide id upload_pending, canvas, id)

/- CachedImage::size, with the canvas image_info lookup abstracted as a
   partial map from image id to (width, height). -/
def CachedImage.size (image_info : Nat → Option (ℚ × ℚ)) : ImageData → ℚ × ℚ
  | ImageData.GPUSide id upload_pending =>
      if upload_pending.getD false then (1, 1)
      else (image_info id).getD (0, 0)
  | ImageData.CPUSide decoded_image =>
      ((decoded_image.width : ℚ), (decoded_image.height : ℚ))

/- The image cache: weak entries keyed by path string or embedded-buffer
   address, over a heap of strong counts per CachedImage instance. -/

inductive ImageCacheKey where
  | Path (path : String)
  | EmbeddedData (address : Nat)
deriving DecidableEq

structure ImageCacheState where
  next_image : Nat
  strong : Nat → Nat
  cache : List (ImageCacheKey × Nat)

/- HashMap insert: replaces any existing entry for the key. -/
def cache_insert (entries : List (ImageCacheKey × Nat)) (key : ImageCacheKey) (id : Nat) :
    List (ImageCacheKey × Nat) :=
  (key, id) :: entries.filter (fun entry => decide (entry.1 ≠ key))

/- Upgrading the weak entry hands the caller a strong clone. -/
def grant_strong (s : ImageCacheState) (id : Nat) : ImageCacheState :=
  { s with strong := fun i => if i = id then s.strong id + 1 else s.strong i }

/- Weak::upgrade: fails when no strong reference is left; on success, the
   upgraded Rc itself counts, so the observable strong count is one more. -/
def weak_upgrade (s : ImageCacheState) (id : Nat) : Option Nat :=
  if s.strong id = 0 then Option.none else Option.some (s.strong id + 1)

/- Rc::new of a fresh CachedImage: one strong holder (the caller). -/
def alloc_image (s : ImageCacheState) : ImageCacheState × Nat :=
  ({ next_image := s.next_image + 1,
     strong := fun i => if i = s.next_image then 1 else s.strong i,
     cache := s.cache }, s.next_image)

/- The two panic sources of load_image_resource: failed decode unwraps, and
   the todo!() on the raw-pixel variant. -/
inductive LoadPanic where
  | decodeFailure
  | notImplemented
deriving DecidableEq

/- GLRendererData::lookup_image_in_cache_or_create, generic over the creation
   callback.  The returned Bool records whether the callback ran. -/
def lookup_image_in_cache_or_create (s : ImageCacheState) (cache_key : ImageCacheKey)
    (image_create_fn : ImageCacheState → Except LoadPanic (ImageCacheState × Nat)) :
    Except LoadPanic (ImageCacheState × Nat × Bool) :=
  match assoc_lookup cache_key s.cache with
  | Option.some id =>
      match weak_upgrade s id with
      | Option.some _count => Except.ok (grant_strong s id, id, false)
      | Option.none =>
          match image_create_fn s with
          | Except.ok (s2, new_image) =>
              Except.ok ({ s2 with cache := cache_insert s2.cache cache_key new_image },
                new_image, true)
          | Except.error e => Except.error e
  | Option.none =>
      match image_create_fn s with
      | Except.ok (s2, new_image) =>
          Except.ok ({ s2 with cache := cache_insert s2.cache cache_key new_image },
            new_image, true)
      | Except.error e => Except.error e

/- The creation callback used by the image-loading paths when decode
   succeeds: Rc::new(CachedImage::new_on_cpu(...)). -/
def create_cached_image (s : ImageCacheState) : Except LoadPanic (ImageCacheState × Nat) :=
  Except.ok (alloc_image s)

/- All external strong holders of one instance go away. -/
def drop_all_external (s : ImageCacheState) (id : Nat) : ImageCacheState :=
  { s with strong := fun i => if i = id then 0 else s.strong i }

/- GLRenderer::flush_renderer's frame-end retain pass: keep an entry only if
   its weak reference upgrades to an image whose strong count exceeds 1. -/
def retain_live (s : ImageCacheState) : ImageCacheState :=
  { s with cache := s.cache.filter (fun entry =>
      match weak_upgrade s entry.2 with
      | Option.none => false
      | Option.some strong_count => decide (strong_count > 1)) }

/- Invariant of reachable cache states: cached ids were allocated, and the
   HashMap has one entry per key. -/
def cache_wf (s : ImageCacheState) : Prop :=
  (∀ entry ∈ s.cache, entry.2 < s.next_image) ∧ (s.cache.map Prod.fst).Nodup

/- Resource, and GLRendererData::load_image_resource.  Decoders are abstract
   collaborators returning none on malformed input (the source unwraps, which
   is the decodeFailure panic). -/

inductive Resource where
  | none
  | absoluteFilePath (path : String)
  | embeddedData (address : Nat) (bytes : List Nat)
  | embeddedRgbaImage (width : Nat) (height : Nat)

/- The bytes of "<svg", used for content sniffing. -/
def svg_header : List Nat := [60, 115, 118, 103]

def load_image_resource
    (load_svg_from_path : String → Option DecodedImage)
    (image_open : String → Option DecodedImage)
    (load_svg_from_data : List Nat → Option DecodedImage)
    (image_load_from_memory : List Nat → Option DecodedImage)
    (s : ImageCacheState) : Resource → Except LoadPanic (ImageCacheState × Option Nat)
  | Resource.none => Except.ok (s, Option.none)
  | Resource.absoluteFilePath path =>
      let create := fun (s3 : ImageCacheState) =>
        match (if String.endsWith path (".svg") then load_svg_from_path path
               else image_open path) with
        | Option.some _decoded => Except.ok (alloc_image s3)
        | Option.none => Except.error LoadPanic.decodeFailure
      match lookup_image_in_cache_or_create s (ImageCacheKey.Path path) create with
      | Except.ok (s2, id, _created) => Except.ok (s2, Option.some id)
      | Except.error e => Except.error e
  | Resource.embeddedData address bytes =>
      let create := fun (s3 : ImageCacheState) =>
        match (if List.isPrefixOf svg_header bytes then load_svg_from_data bytes
               else image_load_from_memory bytes) with
        | Option.some _decoded => Except.ok (alloc_image s3)
        | Option.none => Except.error LoadPanic.decodeFailure
      match lookup_image_in_cache_or_create s (ImageCacheKey.EmbeddedData address) create with
      | Except.ok (s2, id, _created) => Except.ok (s2, Option.some id)
      | Except.error e => Except.error e
  | Resource.embeddedRgbaImage _width _height => Except.error LoadPanic.notImplemented

/- The font cache: font handles memoized by (family, weight). -/

def DEFAULT_FONT_SIZE : ℚ := 12

def DEFAULT_FONT_WEIGHT : Int := 400

structure FontRequest where
  family : String
  weight : Option Int
  pixel_size : Option ℚ
deriving DecidableEq

structure FontCacheKey where
  family : String
  weight : Int
deriving DecidableEq

structure GLFont where
  fonts : List Nat
  pixel_size : ℚ
deriving DecidableEq

structure FontCache where
  entries : List (FontCacheKey × Nat)

/- FontCache::load_single_font: memoized by (family, weight.unwrap()); the
   loader (app font lookup, then system font) is abstract.  The third
   component records the keys for which the loader actually ran. -/
def FontCache.load_single_font (load : FontCacheKey → Nat) (cache : FontCache)
    (request : FontRequest) : FontCache × Nat × List FontCacheKey :=
  let key : FontCacheKey := { family := request.family, weight := request.weight.get! }
  match assoc_lookup key cache.entries with
  | Option.some font_id => (cache, font_id, [])
  | Option.none =>
      let font_id := load key
      ({ entries := (key, font_id) :: cache.entries }, font_id, [key])

def font_fold_step (load : FontCacheKey → Nat)
    (acc : FontCache × List Nat × List FontCacheKey) (fallback_request : FontRequest) :
    FontCache × List Nat × List FontCacheKey :=
  let rr := FontCache.load_single_font load acc.1 fallback_request
  (rr.1, acc.2.1 ++ [rr.2.1], acc.2.2 ++ rr.2.2)

/- FontCache::font: substitute defaults for unset pixel size and weight, load
   the primary font, then each fallback through the same memoized loader. -/
def FontCache.font (load : FontCacheKey → Nat) (fallbacks_for : FontRequest → List FontRequest)
    (cache : FontCache) (request : FontRequest) (scale_factor : ℚ) :
    FontCache × GLFont × List FontCacheKey :=
  let request2 : FontRequest :=
    { request with
      pixel_size := request.pixel_size.or (Option.some (DEFAULT_FONT_SIZE * scale_factor)),
      weight := request.weight.or (Option.some DEFAULT_FONT_WEIGHT) }
  let primary := FontCache.load_single_font load cache request2
  let fallbacks := fallbacks_for request2
  let folded := fallbacks.foldl (font_fold_step load) (primary.1, ([] : List Nat), primary.2.2)
  (folded.1,
   { fonts := primary.2.1 :: folded.2.1, pixel_size := request2.pixel_size.get! },
   folded.2.2)

/- The word-wrap loops of draw_text and GLFont::text_size, with the canvas
   break_text query abstracted as a function of the current start byte index
   (the remaining slice).  Modelled with explicit fuel; running out of fuel
   while text remains yields none, so "some" with fuel len - start + 1 states
   termination of the source's while loop. -/

def wrap_loop (break_text : Nat → Nat) : Nat → Nat → Nat → Option (List (Nat × Nat))
  | 0, len, start => if start < len then Option.none else Option.some []
  | fuel + 1, len, start =>
      if start < len then
        let index := break_text start
        if index = 0 then Option.some []
        else
          match wrap_loop break_text fuel len (start + index) with
          | Option.some rest => Option.some ((start, start + index) :: rest)
          | Option.none => Option.none
      else Option.some []

structure TextSizeState where
  y : ℚ
  width : ℚ
  height : ℚ
deriving DecidableEq

def text_size_loop (break_text : Nat → Nat) (measure : Nat → Nat → ℚ × ℚ) (font_height : ℚ) :
    Nat → Nat → Nat → TextSizeState → Option TextSizeState
  | 0, len, start, acc => if start < len then Option.none else Option.some acc
  | fuel + 1, len, start, acc =>
      if start < len then
        let index := break_text start
        if index = 0 then Option.some acc
        else
          let stop := start + index
          let mesure := measure start stop
          text_size_loop break_text measure font_height fuel len stop
            { y := acc.y + font_height,
              width := max mesure.1 acc.width,
              height := acc.y + mesure.2 }
      else Option.some acc

/- Elision in non-wrapping draw_text.  A line is a list of measured glyphs;
   its measured width is the sum of the glyph advances. -/

structure Glyph where
  advance_x : ℚ
  byte_index : Nat
deriving DecidableEq

def line_width : List Glyph → ℚ
  | [] => 0
  | glyph :: rest => glyph.advance_x + line_width rest

/- The glyph scan of draw_text: accumulate advances, stop at the first glyph
   whose cumulative advance reaches w; returns how many glyphs precede it. -/
def find_cut_from (w current_x : ℚ) : List Glyph → Option Nat
  | [] => Option.none
  | glyph :: rest =>
      let next_x := current_x + glyph.advance_x
      if next_x ≥ w then Option.some 0
      else (find_cut_from w next_x rest).map (fun i => i + 1)

/- What draw_text draws for one line: the full line, or the glyph-boundary
   prefix of kept_glyphs glyphs followed by the ellipsis (overflow = elide),
   or that prefix alone (overflow = clip). -/
inductive DrawnLine where
  | full
  | elided (kept_glyphs : Nat)
  | truncated (kept_glyphs : Nat)
deriving DecidableEq

def draw_text_line (elide : Bool) (ellipsis_width max_width : ℚ) (glyphs : List Glyph) :
    DrawnLine :=
  if line_width glyphs > max_width then
    let w := max_width - (if elide then ellipsis_width else 0)
    match find_cut_from w 0 glyphs with
    | Option.some kept => if elide then DrawnLine.elided kept else DrawnLine.truncated kept
    | Option.none => DrawnLine.full
  else DrawnLine.full

def drawn_line_width (ellipsis_width : ℚ) (glyphs : List Glyph) : DrawnLine → ℚ
  | DrawnLine.full => line_width glyphs
  | DrawnLine.elided kept => line_width (glyphs.take kept) + ellipsis_width
  | DrawnLine.truncated kept => line_width (glyphs.take kept)

/- Cursor mapping in draw_text_input.  fill_text reports glyphs at absolute
   canvas positions: the item position plus the alignment offset plus the
   glyph's offset within the text. -/

structure MeasuredGlyph where
  byte_index : Nat
  x : ℚ
  advance_x : ℚ
deriving DecidableEq

structure TextMetrics where
  glyphs : List MeasuredGlyph
  width : ℚ
deriving DecidableEq

/- The source's cursor x computation: the x of the glyph whose byte index
   equals the cursor position, else pos.x + metrics.width(). -/
def cursor_x (metrics : TextMetrics) (pos_x : ℚ) (cursor_index : Nat) : ℚ :=
  ((metrics.glyphs.find? (fun glyph => glyph.byte_index == cursor_index)).map
      (fun glyph => glyph.x)).getD (pos_x + metrics.width)

/- Metrics as fill_text reports them, built from glyph offsets relative to
   the text origin (byte index, offset, advance) and the draw position
   pos_x + translate_x. -/
def metrics_of (pos_x translate_x : ℚ) (rel_glyphs : List (Nat × ℚ × ℚ)) (text_width : ℚ) :
    TextMetrics :=
  { glyphs := rel_glyphs.map (fun g =>
      { byte_index := g.1, x := pos_x + translate_x + g.2.1, advance_x := g.2.2 }),
    width := text_width }

/-- Modelled from the spec's single coordinate convention for the cursor: the
cursor x is measured from the drawn text's origin (item position plus
alignment offset) both when a glyph matches the byte offset and when the
cursor is logically past the end of the text. -/
def cursor_x_spec (pos_x translate_x : ℚ) (rel_glyphs : List (Nat × ℚ × ℚ)) (text_width : ℚ)
    (cursor_index : Nat) : ℚ :=
  pos_x + translate_x +
    (((rel_glyphs.find? (fun g => g.1 == cursor_index)).map (fun g => g.2.1)).getD text_width)

/- Helper lemmas. -/

lemma balanced_replicate_fillText (n d : Nat) :
    balanced d (List.replicate n CanvasOp.fillText) = (d == 0) := by
  induction n with
  | zero => rfl
  | succ n ih => simpa [List.replicate_succ, balanced] using ih

lemma wrap_loop_isSome (break_text : Nat → Nat) :
    ∀ (fuel len start : Nat), len - start < fuel →
      (wrap_loop break_text fuel len start).isSome = true := by
  intro fuel
  induction fuel with
  | zero => intro len start h; omega
  | succ fuel ih =>
    intro len start h
    by_cases hs : start < len
    · rw [wrap_loop, if_pos hs]
      by_cases hz : break_text start = 0
      · simp [hz]
      · have hrec := ih len (start + break_text start) (by omega)
        rcases Option.isSome_iff_exists.mp hrec with ⟨rest, hrest⟩
        simp [hz, hrest]
    · rw [wrap_loop, if_neg hs]
      rfl

lemma text_size_loop_isSome (break_text : Nat → Nat) (measure : Nat → Nat → ℚ × ℚ)
    (font_height : ℚ) :
    ∀ (fuel len start : Nat) (acc : TextSizeState), len - start < fuel →
      (text_size_loop break_text measure font_height fuel len start acc).isSome = true := by
  intro fuel
  induction fuel with
  | zero => intro len start acc h; omega
  | succ fuel ih =>
    intro len start acc h
    by_cases hs : start < len
    · rw [text_size_loop, if_pos hs]
      by_cases hz : break_text start = 0
      · simp [hz]
      · simpa [hz] using ih len (start + break_text start) _ (by omega)
    · rw [text_size_loop, if_neg hs]
      rfl

/- Claim theorems. -/

/-- C1: the claim says every draw primitive taking a target size is a no-op
when the width or the height is non-positive.  draw_text and draw_text_input
do guard width ≤ 0 and height ≤ 0, but draw_image_impl only guards
target_height < 0, so at target_width = 1, target_height = 0 it proceeds to
load, upload and draw the image instead of returning early — the code
contradicts the spec's stated no-op rule (an evident slip: the width in the
same condition does use ≤). -/
theorem draw_image_impl_zero_height_not_guarded :
    draw_image_impl_returns_early 1 0 = false ∧
    (draw_image_impl_ops 1 0 true).isEmpty = false ∧
    draw_text_returns_early 1 0 = true ∧
    (draw_text_ops 1 0 5).isEmpty = true ∧
    draw_text_input_returns_early 1 0 = true ∧
    (draw_text_input_ops 1 0 true true).isEmpty = true ∧
    draw_image_impl_returns_early 0 5 = true ∧
    draw_image_impl_returns_early 1 (-1) = true := by
  decide

/-- C2: ensure_uploaded_to_gpu is idempotent: calling it twice returns the
same GPU image id both times and create_image runs at most once across the
two calls; the first call on a CPU-side image performs exactly one
create_image and transitions it to GPU-side, and any call on a GPU-side image
is a no-op returning the stored id. -/
theorem ensure_uploaded_to_gpu_idempotent :
    (∀ (decoded_image : DecodedImage) (canvas : Canvas),
      (CachedImage.ensure_uploaded_to_gpu
          (CachedImage.ensure_uploaded_to_gpu (ImageData.CPUSide decoded_image) canvas).1
          (CachedImage.ensure_uploaded_to_gpu (ImageData.CPUSide decoded_image) canvas).2.1) =
        CachedImage.ensure_uploaded_to_gpu (ImageData.CPUSide decoded_image) canvas ∧
      (CachedImage.ensure_uploaded_to_gpu (ImageData.CPUSide decoded_image) canvas).1 =
        ImageData.GPUSide
          (CachedImage.ensure_uploaded_to_gpu (ImageData.CPUSide decoded_image) canvas).2.2
          Option.none ∧
      (CachedImage.ensure_uploaded_to_gpu
          (ImageData.CPUSide decoded_image) canvas).2.1.create_image_calls =
        canvas.create_image_calls + 1) ∧
    (∀ (id : Nat) (upload_pending : Option Bool) (canvas : Canvas),
      CachedImage.ensure_uploaded_to_gpu (ImageData.GPUSide id upload_pending) canvas =
        (ImageData.GPUSide id upload_pending, canvas, id)) := by
  constructor
  · intro decoded_image canvas
    refine ⟨rfl, rfl, rfl⟩
  · intro id upload_pending canvas
    rfl

/-- C7: CachedImage::size never fails: a GPU-side image with the pending flag
present and true reports (1, 1); a GPU-side image that is not pending reports
the canvas dimensions, or (0, 0) when the canvas lookup fails; a CPU-side
image reports the decoded buffer's dimensions. -/
theorem cached_image_size_spec :
    ∀ (image_info : Nat → Option (ℚ × ℚ)) (id : Nat) (decoded_image : DecodedImage),
      CachedImage.size image_info (ImageData.GPUSide id (Option.some true)) = (1, 1) ∧
      CachedImage.size image_info (ImageData.GPUSide id (Option.some false)) =
        (image_info id).getD (0, 0) ∧
      CachedImage.size image_info (ImageData.GPUSide id Option.none) =
        (image_info id).getD (0, 0) ∧
      CachedImage.size image_info (ImageData.CPUSide decoded_image) =
        ((decoded_image.width : ℚ), (decoded_image.height : ℚ)) := by
  intro image_info id decoded_image
  refine ⟨rfl, rfl, rfl, rfl⟩

/-- C9: load_image_resource on an EmbeddedRgbaImage resource fails fast with
the explicit not-implemented panic, which is distinct from the decode-failure
panic, and never returns an empty entry; Resource::None returns no entry
without failing. -/
theorem load_image_resource_unimplemented_fails_fast :
    ∀ (load_svg_from_path image_open : String → Option DecodedImage)
      (load_svg_from_data image_load_from_memory : List Nat → Option DecodedImage)
      (s : ImageCacheState) (width height : Nat),
      load_image_resource load_svg_from_path image_open load_svg_from_data
          image_load_from_memory s (Resource.embeddedRgbaImage width height) =
        Except.error LoadPanic.notImplemented ∧
      load_image_resource load_svg_from_path image_open load_svg_from_data
          image_load_from_memory s Resource.none =
        Except.ok (s, Option.none) ∧
      (decide (LoadPanic.notImplemented = LoadPanic.decodeFailure)) = false := by
  intro p1 p2 p3 p4 s w h
  refine ⟨rfl, rfl, by decide⟩

/-- C5: the word-wrap loops of draw_text and GLFont::text_size terminate for
every break_text oracle: with fuel len - start + 1 (one step per remaining
byte plus the final check) neither fueled loop runs out of fuel, because each
iteration either strictly advances the start index by a non-empty prefix or
exits immediately on a zero-length break result. -/
theorem text_wrap_loops_terminate :
    ∀ (break_text : Nat → Nat) (measure : Nat → Nat → ℚ × ℚ) (font_height : ℚ)
      (len start : Nat) (acc : TextSizeState),
      (wrap_loop break_text (len - start + 1) len start).isSome = true ∧
      (text_size_loop break_text measure font_height (len - start + 1) len start acc).isSome
        = true := by
  intro break_text measure font_height len start acc
  exact ⟨wrap_loop_isSome break_text _ len start (by omega),
    text_size_loop_isSome break_text measure font_height _ len start acc (by omega)⟩

/-- C10: every draw primitive performs a balanced number of canvas saves and
restores in every branch (empty geometry, selection present or not, cursor
drawn or not, any guard outcome, any number of wrapped lines), so the canvas
state-stack depth after the call equals the depth before it and only the
caller's explicit save_state/restore_state calls change it. -/
theorem draw_primitives_balanced :
    ∀ (geometry_is_empty elements_is_none : Bool) (width height : ℚ)
      (image_available has_selection cursor_drawn : Bool) (lines_drawn : Nat),
      balanced 0 (draw_rectangle_ops geometry_is_empty) = true ∧
      balanced 0 (draw_border_rectangle_ops geometry_is_empty) = true ∧
      balanced 0 (draw_path_ops elements_is_none) = true ∧
      balanced 0 draw_box_shadow_ops = true ∧
      balanced 0 (draw_image_impl_ops width height image_available) = true ∧
      balanced 0 (draw_text_ops width height lines_drawn) = true ∧
      balanced 0 (draw_text_input_ops width height has_selection cursor_drawn) = true ∧
      balanced 0 (draw_cached_pixmap_ops image_available) = true ∧
      balanced 0 combine_clip_ops = true := by
  intro ge en w h avail sel cur lines
  refine ⟨?_, ?_, ?_, ?_, ?_, ?_, ?_, ?_, ?_⟩
  · cases ge <;> decide
  · cases ge <;> decide
  · cases en <;> decide
  · decide
  · cases hguard : draw_image_impl_returns_early w h <;> cases avail <;>
      (simp only [draw_image_impl_ops, hguard]; decide)
  · cases hguard : draw_text_returns_early w h <;>
      simp [draw_text_ops, hguard, balanced_replicate_fillText, balanced]
  · cases hguard : draw_text_input_returns_early w h <;> cases sel <;> cases cur <;>
      (simp only [draw_text_input_ops, hguard]; decide)
  · cases avail <;> decide
  · decide

/- Lemmas about the elision glyph scan. -/

lemma find_cut_from_isSome (w : ℚ) :
    ∀ (glyphs : List Glyph) (current_x : ℚ), glyphs ≠ [] →
      w ≤ current_x + line_width glyphs → (find_cut_from w current_x glyphs).isSome = true := by
  intro glyphs
  induction glyphs with
  | nil => intro cx hne _; exact absurd rfl hne
  | cons g rest ih =>
    intro cx _ hle
    simp only [find_cut_from]
    by_cases hge : cx + g.advance_x ≥ w
    · simp [hge]
    · have hrest : rest ≠ [] := by
        intro hr
        subst hr
        simp only [line_width] at hle
        exact hge (by linarith)
      have hle2 : w ≤ (cx + g.advance_x) + line_width rest := by
        simp only [line_width] at hle
        linarith
      have hs := ih (cx + g.advance_x) hrest hle2
      rcases Option.isSome_iff_exists.mp hs with ⟨i, hi⟩
      simp [hge, hi]

lemma find_cut_from_spec (w : ℚ) :
    ∀ (glyphs : List Glyph) (current_x : ℚ) (i : Nat),
      find_cut_from w current_x glyphs = Option.some i →
      i = 0 ∨ current_x + line_width (glyphs.take i) < w := by
  intro glyphs
  induction glyphs with
  | nil => intro cx i h; simp [find_cut_from] at h
  | cons g rest ih =>
    intro cx i h
    simp only [find_cut_from] at h
    by_cases hge : cx + g.advance_x ≥ w
    · rw [if_pos hge] at h
      injection h with h2
      exact Or.inl h2.symm
    · rw [if_neg hge] at h
      rcases Option.map_eq_some'.mp h with ⟨j, hj, hij⟩
      right
      subst hij
      rcases ih (cx + g.advance_x) j hj with hz | hlt
      · subst hz
        simp only [List.take_succ_cons, List.take_zero, line_width]
        have := lt_of_not_ge hge
        linarith
      · simp only [List.take_succ_cons, line_width]
        linarith

/-- C6 counterexample: with max_width = 1 and an ellipsis glyph of measured
width 2, a one-glyph line of width 3 exceeds max_width, the code elides to
the empty glyph-boundary prefix followed by the ellipsis, and the drawn
string measures 2 > 1 = max_width — the claim's width bound fails when the
ellipsis alone is wider than max_width. -/
theorem draw_text_elide_counterexample :
    draw_text_line true 2 1 [{ advance_x := 3, byte_index := 0 }] = DrawnLine.elided 0 ∧
    drawn_line_width 2 [{ advance_x := 3, byte_index := 0 }] (DrawnLine.elided 0) = 2 ∧
    1 < drawn_line_width 2 [{ advance_x := 3, byte_index := 0 }] (DrawnLine.elided 0) := by
  refine ⟨?_, ?_, ?_⟩
  · norm_num [draw_text_line, line_width, find_cut_from]
  · norm_num [drawn_line_width, line_width]
  · norm_num [drawn_line_width, line_width]

/-- C6 amended: in non-wrapping draw_text with overflow = elide, for every
line whose measured width exceeds max_width, the drawn string is a
glyph-boundary prefix of the line followed by the ellipsis glyph, and —
provided the ellipsis glyph itself fits, i.e. its measured width is
non-negative and at most max_width — the measured width of the drawn string
is at most max_width. -/
theorem draw_text_elide_within_max_width (ellipsis_width max_width : ℚ) (glyphs : List Glyph)
    (h_wide : line_width glyphs > max_width)
    (h_nonneg : 0 ≤ ellipsis_width)
    (h_fits : ellipsis_width ≤ max_width) :
    ∃ kept, draw_text_line true ellipsis_width max_width glyphs = DrawnLine.elided kept ∧
      drawn_line_width ellipsis_width glyphs (DrawnLine.elided kept) ≤ max_width := by
  have hne : glyphs ≠ [] := by
    intro h
    subst h
    simp only [line_width] at h_wide
    linarith
  have hcut : (find_cut_from (max_width - ellipsis_width) 0 glyphs).isSome = true := by
    apply find_cut_from_isSome _ _ _ hne
    linarith
  rcases Option.isSome_iff_exists.mp hcut with ⟨kept, hkept⟩
  refine ⟨kept, ?_, ?_⟩
  · simp only [draw_text_line, if_pos h_wide, if_true, hkept]
  · rcases find_cut_from_spec _ _ _ _ hkept with hz | hlt
    · subst hz
      simp only [drawn_line_width, List.take_zero, line_width]
      linarith
    · simp only [drawn_line_width]
      linarith

theorem draw_text_elide_within_max_width_witness :
    ∃ kept,
      draw_text_line true 2 10
          [{ advance_x := 6, byte_index := 0 }, { advance_x := 6, byte_index := 1 }] =
        DrawnLine.elided kept ∧
      drawn_line_width 2
          [{ advance_x := 6, byte_index := 0 }, { advance_x := 6, byte_index := 1 }]
          (DrawnLine.elided kept) ≤ 10 :=
  draw_text_elide_within_max_width 2 10
    [{ advance_x := 6, byte_index := 0 }, { advance_x := 6, byte_index := 1 }]
    (by norm_num [line_width]) (by norm_num) (by norm_num)

/- Lemma: find? over the glyph list that fill_text reports. -/

lemma find_map_metrics (pos_x translate_x : ℚ) (cursor_index : Nat) :
    ∀ (rel_glyphs : List (Nat × ℚ × ℚ)),
      ((rel_glyphs.map (fun g =>
          ({ byte_index := g.1, x := pos_x + translate_x + g.2.1, advance_x := g.2.2 } :
            MeasuredGlyph))).find? (fun glyph => glyph.byte_index == cursor_index)) =
        (rel_glyphs.find? (fun g => g.1 == cursor_index)).map (fun g =>
          ({ byte_index := g.1, x := pos_x + translate_x + g.2.1, advance_x := g.2.2 } :
            MeasuredGlyph)) := by
  intro rel_glyphs
  induction rel_glyphs with
  | nil => rfl
  | cons g rest ih =>
    by_cases h : (g.1 == cursor_index) = true
    · simp [List.find?, h]
    · simp only [List.map_cons, List.find?]
      rw [Bool.not_eq_true] at h
      simp [h, ih]

/-- C8 counterexample: with the item at pos.x = 0, a centering alignment
offset translate_x = 45, one glyph at byte index 0 and a text width of 10,
the cursor at byte offset 1 (past the end) matches no glyph; the code falls
back to pos.x + metrics.width() = 10, while the glyph coordinate convention
(item position plus alignment offset) puts the end of the text at 55 — the
found and not-found cases do not use the same coordinate convention when the
alignment offset is non-zero. -/
theorem cursor_x_convention_counterexample :
    cursor_x (metrics_of 0 45 [(0, 0, 10)] 10) 0 1 = 10 ∧
    cursor_x_spec 0 45 [(0, 0, 10)] 10 1 = 55 ∧
    cursor_x (metrics_of 0 45 [(0, 0, 10)] 10) 0 1 <
      cursor_x_spec 0 45 [(0, 0, 10)] 10 1 := by
  have h1 : (metrics_of 0 45 [(0, 0, 10)] 10).glyphs.find?
      (fun glyph => glyph.byte_index == 1) = Option.none := rfl
  have h2 : ([((0 : Nat), (0 : ℚ), (10 : ℚ))]).find? (fun g => g.1 == 1) = Option.none := rfl
  refine ⟨?_, ?_, ?_⟩
  · unfold cursor_x
    rw [h1]
    norm_num [metrics_of]
  · unfold cursor_x_spec
    rw [h2]
    norm_num
  · unfold cursor_x cursor_x_spec
    rw [h1, h2]
    norm_num [metrics_of]

/-- C8 amended: when the cursor is drawn, its x is the x of the measured
glyph whose byte index equals the cursor position, and otherwise falls back
to pos.x plus the measured text width; the two cases use the same coordinate
convention exactly when the horizontal alignment offset is zero (left
alignment) — with a non-zero alignment offset the fallback omits that offset
(see the counterexample). -/
theorem cursor_x_glyph_or_end :
    (∀ (pos_x translate_x text_width : ℚ) (rel_glyphs : List (Nat × ℚ × ℚ))
      (cursor_index : Nat),
      cursor_x (metrics_of pos_x translate_x rel_glyphs text_width) pos_x cursor_index =
        (((metrics_of pos_x translate_x rel_glyphs text_width).glyphs.find?
            (fun glyph => glyph.byte_index == cursor_index)).map
          (fun glyph => glyph.x)).getD (pos_x + text_width)) ∧
    (∀ (pos_x text_width : ℚ) (rel_glyphs : List (Nat × ℚ × ℚ)) (cursor_index : Nat),
      cursor_x (metrics_of pos_x 0 rel_glyphs text_width) pos_x cursor_index =
        cursor_x_spec pos_x 0 rel_glyphs text_width cursor_index) := by
  constructor
  · intro pos_x translate_x text_width rel_glyphs cursor_index
    rfl
  · intro pos_x text_width rel_glyphs cursor_index
    unfold cursor_x cursor_x_spec metrics_of
    rw [find_map_metrics]
    cases h : rel_glyphs.find? (fun g => g.1 == cursor_index) with
    | none => simp [h]
    | some g => simp [h]

/- Lemmas about association lookups, for the image cache proofs. -/

lemma assoc_lookup_filter_eq_none {α β : Type} [DecidableEq α] (key : α) (p : α × β → Bool)
    (l : List (α × β)) (h : ∀ e ∈ l, e.1 = key → p e = false) :
    assoc_lookup key (l.filter p) = Option.none := by
  induction l with
  | nil => rfl
  | cons e rest ih =>
    have hrest : ∀ e2 ∈ rest, e2.1 = key → p e2 = false :=
      fun e2 he2 => h e2 (List.mem_cons_of_mem _ he2)
    by_cases hk : e.1 = key
    · have hp : p e = false := h e (List.mem_cons_self _ _) hk
      simp [List.filter_cons, hp, ih hrest]
    · cases hp : p e with
      | false => simp [List.filter_cons, hp, ih hrest]
      | true => simp [List.filter_cons, hp, assoc_lookup, hk, ih hrest]

lemma assoc_lookup_nodup_unique {α β : Type} [DecidableEq α] (key : α) (v : β) :
    ∀ (l : List (α × β)), (l.map Prod.fst).Nodup → assoc_lookup key l = Option.some v →
      ∀ e ∈ l, e.1 = key → e.2 = v := by
  intro l
  induction l with
  | nil => intro _ _ e he; exact absurd he (List.not_mem_nil e)
  | cons a rest ih =>
    intro hnd h e he hek
    rw [List.map_cons, List.nodup_cons] at hnd
    rcases List.mem_cons.mp he with he1 | he2
    · subst he1
      rw [assoc_lookup, if_pos hek] at h
      injection h
    · by_cases hk : a.1 = key
      · exfalso
        have hmem : e.1 ∈ rest.map Prod.fst := List.mem_map_of_mem _ he2
        rw [hek, ← hk] at hmem
        exact hnd.1 hmem
      · rw [assoc_lookup, if_neg hk] at h
        exact ih hnd.2 h e he2 hek

lemma assoc_lookup_mem {α β : Type} [DecidableEq α] (key : α) (v : β) :
    ∀ (l : List (α × β)), assoc_lookup key l = Option.some v →
      ∃ e ∈ l, e.1 = key ∧ e.2 = v := by
  intro l
  induction l with
  | nil => intro h; simp [assoc_lookup] at h
  | cons a rest ih =>
    intro h
    rw [assoc_lookup] at h
    by_cases hk : a.1 = key
    · rw [if_pos hk] at h
      injection h with h2
      exact ⟨a, List.mem_cons_self _ _, hk, h2⟩
    · rw [if_neg hk] at h
      rcases ih h with ⟨e, he, h1, h2⟩
      exact ⟨e, List.mem_cons_of_mem _ he, h1, h2⟩

lemma cache_insert_key_val (entries : List (ImageCacheKey × Nat)) (key : ImageCacheKey)
    (id : Nat) : ∀ e ∈ cache_insert entries key id, e.1 = key → e.2 = id := by
  intro e he hek
  rcases List.mem_cons.mp he with he1 | he2
  · rw [he1]
  · exfalso
    have := List.of_mem_filter he2
    exact (of_decide_eq_true this) hek

/- The state produced by a cache miss: allocate a fresh instance and insert a
   weak entry for it. -/
def created_state (s : ImageCacheState) (k : ImageCacheKey) : ImageCacheState :=
  { next_image := s.next_image + 1,
    strong := fun i => if i = s.next_image then 1 else s.strong i,
    cache := cache_insert s.cache k s.next_image }

lemma lookup_create_of_none (s : ImageCacheState) (k : ImageCacheKey)
    (h : assoc_lookup k s.cache = Option.none) :
    lookup_image_in_cache_or_create s k create_cached_image =
      Except.ok (created_state s k, s.next_image, true) := by
  unfold lookup_image_in_cache_or_create
  rw [h]
  rfl

lemma lookup_create_of_dead (s : ImageCacheState) (k : ImageCacheKey) (id : Nat)
    (h : assoc_lookup k s.cache = Option.some id) (hdead : s.strong id = 0) :
    lookup_image_in_cache_or_create s k create_cached_image =
      Except.ok (created_state s k, s.next_image, true) := by
  unfold lookup_image_in_cache_or_create
  rw [h]
  simp [weak_upgrade, hdead, created_state, create_cached_image, alloc_image]

lemma lookup_hit (s : ImageCacheState) (k : ImageCacheKey) (id : Nat)
    (h : assoc_lookup k s.cache = Option.some id) (hlive : s.strong id ≠ 0) :
    lookup_image_in_cache_or_create s k create_cached_image =
      Except.ok (grant_strong s id, id, false) := by
  unfold lookup_image_in_cache_or_create
  rw [h]
  simp [weak_upgrade, hlive]

lemma third_lookup_creates (s2 : ImageCacheState) (k : ImageCacheKey) (id1 : Nat)
    (hall : ∀ e ∈ s2.cache, e.1 = k → e.2 = id1) :
    ∃ s4, lookup_image_in_cache_or_create (retain_live (drop_all_external s2 id1)) k
        create_cached_image = Except.ok (s4, s2.next_image, true) := by
  have hnone : assoc_lookup k (retain_live (drop_all_external s2 id1)).cache =
      Option.none := by
    apply assoc_lookup_filter_eq_none
    intro e he hek
    have hid := hall e he hek
    simp [hid, weak_upgrade, drop_all_external]
  exact ⟨_, lookup_create_of_none (retain_live (drop_all_external s2 id1)) k hnone⟩

lemma chain_from_created (s : ImageCacheState) (k : ImageCacheKey) :
    ∃ s2,
      lookup_image_in_cache_or_create (created_state s k) k create_cached_image =
        Except.ok (s2, s.next_image, false) ∧
      s.next_image < s2.next_image ∧
      ∃ s4,
        lookup_image_in_cache_or_create (retain_live (drop_all_external s2 s.next_image)) k
          create_cached_image = Except.ok (s4, s2.next_image, true) := by
  have hd1 : assoc_lookup k (created_state s k).cache = Option.some s.next_image := by
    simp [created_state, cache_insert, assoc_lookup]
  have hlive : (created_state s k).strong s.next_image ≠ 0 := by
    simp [created_state]
  refine ⟨grant_strong (created_state s k) s.next_image,
    lookup_hit (created_state s k) k s.next_image hd1 hlive, ?_, ?_⟩
  · simp only [grant_strong, created_state]
    omega
  · apply third_lookup_creates
    intro e he hek
    exact cache_insert_key_val s.cache k s.next_image e he hek

/-- C3: for any well-formed image cache state and key, a lookup followed by a
second lookup while the first result is still strongly held returns the same
instance without running the creation callback again; and once every external
holder of that instance is dropped and the frame-end retain pass has run, the
next lookup runs the creation callback and returns a fresh instance (its id
is new: it exceeds every id allocated before). -/
theorem image_cache_identity_and_gc (s : ImageCacheState) (k : ImageCacheKey)
    (hwf : cache_wf s) :
    ∃ s1 id1 created1 s2,
      lookup_image_in_cache_or_create s k create_cached_image =
        Except.ok (s1, id1, created1) ∧
      lookup_image_in_cache_or_create s1 k create_cached_image =
        Except.ok (s2, id1, false) ∧
      id1 < s2.next_image ∧
      ∃ s4,
        lookup_image_in_cache_or_create (retain_live (drop_all_external s2 id1)) k
          create_cached_image = Except.ok (s4, s2.next_image, true) := by
  cases hl : assoc_lookup k s.cache with
  | none =>
    rcases chain_from_created s k with ⟨s2, h2, hlt, h3⟩
    exact ⟨created_state s k, s.next_image, true, s2, lookup_create_of_none s k hl, h2,
      hlt, h3⟩
  | some id =>
    by_cases hdead : s.strong id = 0
    · rcases chain_from_created s k with ⟨s2, h2, hlt, h3⟩
      exact ⟨created_state s k, s.next_image, true, s2, lookup_create_of_dead s k id hl hdead,
        h2, hlt, h3⟩
    · have h1 := lookup_hit s k id hl hdead
      have hl1 : assoc_lookup k (grant_strong s id).cache = Option.some id := hl
      have hlive1 : (grant_strong s id).strong id ≠ 0 := by simp [grant_strong]
      have h2 := lookup_hit (grant_strong s id) k id hl1 hlive1
      have hall : ∀ e ∈ (grant_strong (grant_strong s id) id).cache, e.1 = k → e.2 = id :=
        fun e he hek => assoc_lookup_nodup_unique k id s.cache hwf.2 hl e he hek
      rcases third_lookup_creates (grant_strong (grant_strong s id) id) k id hall with ⟨s4, h3⟩
      refine ⟨grant_strong s id, id, false, grant_strong (grant_strong s id) id, h1, h2,
        ?_, ⟨s4, h3⟩⟩
      rcases assoc_lookup_mem k id s.cache hl with ⟨e, he, _, hev⟩
      have hb := hwf.1 e he
      simp only [grant_strong]
      omega

theorem image_cache_identity_and_gc_witness :
    ∃ s1 id1 created1 s2,
      lookup_image_in_cache_or_create
          { next_image := 0, strong := fun _ => 0, cache := [] }
          (ImageCacheKey.Path ("img.png")) create_cached_image =
        Except.ok (s1, id1, created1) ∧
      lookup_image_in_cache_or_create s1 (ImageCacheKey.Path ("img.png"))
          create_cached_image =
        Except.ok (s2, id1, false) ∧
      id1 < s2.next_image ∧
      ∃ s4,
        lookup_image_in_cache_or_create (retain_live (drop_all_external s2 id1))
          (ImageCacheKey.Path ("img.png")) create_cached_image =
          Except.ok (s4, s2.next_image, true) :=
  image_cache_identity_and_gc { next_image := 0, strong := fun _ => 0, cache := [] }
    (ImageCacheKey.Path ("img.png")) ⟨by simp, by simp⟩

/- Lemmas about the font cache. -/

lemma load_single_font_lookup_self (load : FontCacheKey → Nat) (cache : FontCache)
    (request : FontRequest) :
    assoc_lookup ({ family := request.family, weight := request.weight.get! } : FontCacheKey)
        (FontCache.load_single_font load cache request).1.entries =
      Option.some (FontCache.load_single_font load cache request).2.1 := by
  cases hl : assoc_lookup
      ({ family := request.family, weight := request.weight.get! } : FontCacheKey)
      cache.entries with
  | some id => simp [FontCache.load_single_font, hl]
  | none => simp [FontCache.load_single_font, hl, assoc_lookup]

lemma load_single_font_hit (load : FontCacheKey → Nat) (cache : FontCache)
    (request : FontRequest) (id : Nat)
    (h : assoc_lookup ({ family := request.family, weight := request.weight.get! } :
        FontCacheKey) cache.entries = Option.some id) :
    FontCache.load_single_font load cache request = (cache, id, []) := by
  simp only [FontCache.load_single_font]
  rw [h]

lemma load_single_font_preserves (load : FontCacheKey → Nat) (cache : FontCache)
    (request : FontRequest) (k : FontCacheKey) (v : Nat)
    (h : assoc_lookup k cache.entries = Option.some v) :
    assoc_lookup k (FontCache.load_single_font load cache request).1.entries =
      Option.some v ∧
    mem_bool k (FontCache.load_single_font load cache request).2.2 = false := by
  cases hl : assoc_lookup
      ({ family := request.family, weight := request.weight.get! } : FontCacheKey)
      cache.entries with
  | some id => exact ⟨by simpa [FontCache.load_single_font, hl] using h,
      by simp [FontCache.load_single_font, hl, mem_bool]⟩
  | none =>
    have hne : ({ family := request.family, weight := request.weight.get! } : FontCacheKey)
        ≠ k := by
      intro he
      rw [he, h] at hl
      exact Option.noConfusion hl
    constructor
    · simp [FontCache.load_single_font, hl, assoc_lookup, hne, h]
    · simp [FontCache.load_single_font, hl, mem_bool, hne]

lemma mem_bool_append {α : Type} [DecidableEq α] (a : α) :
    ∀ (l1 l2 : List α), mem_bool a (l1 ++ l2) = (mem_bool a l1 || mem_bool a l2) := by
  intro l1 l2
  induction l1 with
  | nil => rfl
  | cons b rest ih =>
    by_cases h : b = a
    · simp [mem_bool, h]
    · simp [mem_bool, h, ih]

lemma font_fold_preserves (load : FontCacheKey → Nat) (k : FontCacheKey) (v : Nat) :
    ∀ (l : List FontRequest) (acc : FontCache × List Nat × List FontCacheKey),
      assoc_lookup k acc.1.entries = Option.some v →
      (assoc_lookup k (l.foldl (font_fold_step load) acc).1.entries = Option.some v ∧
        (mem_bool k acc.2.2 = false →
          mem_bool k (l.foldl (font_fold_step load) acc).2.2 = false)) := by
  intro l
  induction l with
  | nil => intro acc h; exact ⟨h, fun hm => hm⟩
  | cons fr rest ih =>
    intro acc h
    have hp := load_single_font_preserves load acc.1 fr k v h
    have hstep : assoc_lookup k (font_fold_step load acc fr).1.entries = Option.some v := hp.1
    rcases ih (font_fold_step load acc fr) hstep with ⟨ha, hb⟩
    refine ⟨ha, ?_⟩
    intro hm
    apply hb
    show mem_bool k (acc.2.2 ++ (FontCache.load_single_font load acc.1 fr).2.2) = false
    rw [mem_bool_append]
    simp [hm, hp.2]

lemma font_fold_loads_extend (load : FontCacheKey → Nat) :
    ∀ (l : List FontRequest) (acc : FontCache × List Nat × List FontCacheKey),
      ∃ t, (l.foldl (font_fold_step load) acc).2.2 = acc.2.2 ++ t := by
  intro l
  induction l with
  | nil => intro acc; exact ⟨[], (List.append_nil _).symm⟩
  | cons fr rest ih =>
    intro acc
    rcases ih (font_fold_step load acc fr) with ⟨t, ht⟩
    refine ⟨(FontCache.load_single_font load acc.1 fr).2.2 ++ t, ?_⟩
    have h2 : (font_fold_step load acc fr).2.2 =
        acc.2.2 ++ (FontCache.load_single_font load acc.1 fr).2.2 := rfl
    calc ((fr :: rest).foldl (font_fold_step load) acc).2.2
        = (rest.foldl (font_fold_step load) (font_fold_step load acc fr)).2.2 := rfl
      _ = (font_fold_step load acc fr).2.2 ++ t := ht
      _ = acc.2.2 ++ (FontCache.load_single_font load acc.1 fr).2.2 ++ t := by rw [h2]
      _ = acc.2.2 ++ ((FontCache.load_single_font load acc.1 fr).2.2 ++ t) :=
          List.append_assoc _ _ _

lemma font_caches_primary (load : FontCacheKey → Nat) (fb : FontRequest → List FontRequest)
    (cache : FontCache) (request : FontRequest) (scale_factor : ℚ) :
    ∃ id,
      ((FontCache.font load fb cache request scale_factor).2.1).fonts.head? =
        Option.some id ∧
      assoc_lookup
          ({ family := request.family,
             weight := (request.weight.or (Option.some DEFAULT_FONT_WEIGHT)).get! } :
            FontCacheKey)
          ((FontCache.font load fb cache request scale_factor).1).entries =
        Option.some id := by
  refine ⟨(FontCache.load_single_font load cache
    { family := request.family,
      weight := request.weight.or (Option.some DEFAULT_FONT_WEIGHT),
      pixel_size := request.pixel_size.or
        (Option.some (DEFAULT_FONT_SIZE * scale_factor)) }).2.1, rfl, ?_⟩
  exact (font_fold_preserves load _ _ _ _
    (load_single_font_lookup_self load cache
      { family := request.family,
        weight := request.weight.or (Option.some DEFAULT_FONT_WEIGHT),
        pixel_size := request.pixel_size.or
          (Option.some (DEFAULT_FONT_SIZE * scale_factor)) })).1

lemma font_primary_cached (load : FontCacheKey → Nat) (fb : FontRequest → List FontRequest)
    (cache : FontCache) (request : FontRequest) (scale_factor : ℚ) (id : Nat)
    (h : assoc_lookup
        ({ family := request.family,
           weight := (request.weight.or (Option.some DEFAULT_FONT_WEIGHT)).get! } :
          FontCacheKey) cache.entries = Option.some id) :
    ((FontCache.font load fb cache request scale_factor).2.1).fonts.head? =
      Option.some id ∧
    mem_bool
      ({ family := request.family,
         weight := (request.weight.or (Option.some DEFAULT_FONT_WEIGHT)).get! } :
        FontCacheKey)
      ((FontCache.font load fb cache request scale_factor).2.2) = false := by
  have hhit : FontCache.load_single_font load cache
      ({ family := request.family,
         weight := request.weight.or (Option.some DEFAULT_FONT_WEIGHT),
         pixel_size := request.pixel_size.or
           (Option.some (DEFAULT_FONT_SIZE * scale_factor)) } : FontRequest) =
      (cache, id, []) :=
    load_single_font_hit load cache _ id h
  constructor
  · show Option.some (FontCache.load_single_font load cache
      ({ family := request.family,
         weight := request.weight.or (Option.some DEFAULT_FONT_WEIGHT),
         pixel_size := request.pixel_size.or
           (Option.some (DEFAULT_FONT_SIZE * scale_factor)) } : FontRequest)).2.1 =
      Option.some id
    rw [hhit]
  · show mem_bool _
      (((fb ({ family := request.family,
               weight := request.weight.or (Option.some DEFAULT_FONT_WEIGHT),
               pixel_size := request.pixel_size.or
                 (Option.some (DEFAULT_FONT_SIZE * scale_factor)) } : FontRequest)).foldl
          (font_fold_step load)
          ((FontCache.load_single_font load cache
            ({ family := request.family,
               weight := request.weight.or (Option.some DEFAULT_FONT_WEIGHT),
               pixel_size := request.pixel_size.or
                 (Option.some (DEFAULT_FONT_SIZE * scale_factor)) } : FontRequest)).1,
           ([] : List Nat),
           (FontCache.load_single_font load cache
            ({ family := request.family,
               weight := request.weight.or (Option.some DEFAULT_FONT_WEIGHT),
               pixel_size := request.pixel_size.or
                 (Option.some (DEFAULT_FONT_SIZE * scale_factor)) } : FontRequest)).2.2)).2.2)
      = false
    rw [hhit]
    exact (font_fold_preserves load _ id _ ((cache, [], []) :
      FontCache × List Nat × List FontCacheKey) h).2 rfl

/-- C4: FontCache::font substitutes pixel size 12 * scale_factor when the
request's pixel size is unset and weight 400 when the weight is unset (the
"Sans" request at scale factor 2 resolves to pixel size 24 and the loader is
invoked at key ("Sans", 400)), and the handle is memoized by (family, weight)
only: a second request with the same family and weight but a different pixel
size returns the same primary handle and never invokes the loader for that
key again. -/
theorem font_cache_defaults_and_memoization :
    (∀ (load : FontCacheKey → Nat) (fb : FontRequest → List FontRequest) (cache : FontCache)
      (family : String) (scale_factor : ℚ),
      ((FontCache.font load fb cache
          { family := family, weight := Option.none, pixel_size := Option.none }
          scale_factor).2.1).pixel_size = DEFAULT_FONT_SIZE * scale_factor) ∧
    (∀ (load : FontCacheKey → Nat) (fb : FontRequest → List FontRequest),
      ((FontCache.font load fb { entries := [] }
          { family := ("Sans"), weight := Option.none, pixel_size := Option.none }
          2).2.1).pixel_size = 24 ∧
      ((FontCache.font load fb { entries := [] }
          { family := ("Sans"), weight := Option.none, pixel_size := Option.none }
          2).2.2).head? = Option.some { family := ("Sans"), weight := 400 }) ∧
    (∀ (load : FontCacheKey → Nat) (fb : FontRequest → List FontRequest) (cache : FontCache)
      (family : String) (w : Option Int) (s1 s2 : Option ℚ) (sf1 sf2 : ℚ),
      ((FontCache.font load fb (FontCache.font load fb cache
            { family := family, weight := w, pixel_size := s1 } sf1).1
          { family := family, weight := w, pixel_size := s2 } sf2).2.1).fonts.head? =
        ((FontCache.font load fb cache
            { family := family, weight := w, pixel_size := s1 } sf1).2.1).fonts.head? ∧
      mem_bool { family := family, weight := w.getD DEFAULT_FONT_WEIGHT }
        ((FontCache.font load fb (FontCache.font load fb cache
            { family := family, weight := w, pixel_size := s1 } sf1).1
          { family := family, weight := w, pixel_size := s2 } sf2).2.2) = false) := by
  refine ⟨?_, ?_, ?_⟩
  · intro load fb cache family scale_factor
    rfl
  · intro load fb
    constructor
    · show DEFAULT_FONT_SIZE * 2 = 24
      norm_num [DEFAULT_FONT_SIZE]
    · rcases font_fold_loads_extend load
        (fb ({ family := ("Sans"), weight := Option.some DEFAULT_FONT_WEIGHT,
               pixel_size := Option.some (DEFAULT_FONT_SIZE * 2) } : FontRequest))
        (({ entries := [(({ family := ("Sans"), weight := DEFAULT_FONT_WEIGHT } : FontCacheKey),
              load ({ family := ("Sans"), weight := DEFAULT_FONT_WEIGHT } : FontCacheKey))] } :
            FontCache),
         ([] : List Nat),
         [({ family := ("Sans"), weight := DEFAULT_FONT_WEIGHT } : FontCacheKey)]) with ⟨t, ht⟩
      show ((fb ({ family := ("Sans"), weight := Option.some DEFAULT_FONT_WEIGHT,
                   pixel_size := Option.some (DEFAULT_FONT_SIZE * 2) } : FontRequest)).foldl
          (font_fold_step load)
          (({ entries := [(({ family := ("Sans"), weight := DEFAULT_FONT_WEIGHT } :
                  FontCacheKey),
                load ({ family := ("Sans"), weight := DEFAULT_FONT_WEIGHT } :
                  FontCacheKey))] } : FontCache),
           ([] : List Nat),
           [({ family := ("Sans"), weight := DEFAULT_FONT_WEIGHT } : FontCacheKey)])).2.2.head?
        = Option.some { family := ("Sans"), weight := 400 }
      rw [ht]
      rfl
  · intro load fb cache family w s1 s2 sf1 sf2
    obtain ⟨id, hhead1, hcached⟩ := font_caches_primary load fb cache
      { family := family, weight := w, pixel_size := s1 } sf1
    obtain ⟨hh2, hm2⟩ := font_primary_cached load fb _
      { family := family, weight := w, pixel_size := s2 } sf2 id hcached
    refine ⟨hh2.trans hhead1.symm, ?_⟩
    have hkeq : ({ family := family, weight := w.getD DEFAULT_FONT_WEIGHT } : FontCacheKey) =
        { family := family, weight := (w.or (Option.some DEFAULT_FONT_WEIGHT)).get! } := by
      cases w <;> rfl
    rw [hkeq]
    exact hm2

end GLBackend
